import Mathlib

/-!
Shallow embedding of the snipsafe snippet service: the Snippet document model
(src/unnamed/part_004, snippetSchema) and the route handlers of
src/server/routes/snippets.js, together with theorems checking the
natural-language specification against them.

Conventions of the embedding:
- Mongo ObjectIds become `Nat`, timestamps become `Int` milliseconds.
- The snippet collection is a `List Snippet`; `findOne` is `List.find?` with
  the handler's query predicate; `save` replaces the document with the same id.
- `visibility` and `permissions` stay `String`s, as in the schema (the schema
  restricts them by an enum validator, which theorems carry as hypotheses
  where they need it).
- An HTTP response is `Response α`: 200 with a payload, 404, or 403.
-/

namespace SnipSafe

/-- A user record of the identity store, as the routes read it
(`User.findOne` on email / username / organization / isActive). -/
structure UserRec where
  uid : Nat
  username : String
  email : String
  organization : String
  isActive : Bool
deriving Repr, DecidableEq

/-- One entry of a snippet's `sharedWith` ledger (snippetSchema.sharedWith):
subdocument id, optional resolved user, email kept for display / pending
grants, permissions string, granter. -/
structure ShareEntry where
  sid : Nat
  user : Option Nat
  email : String
  permissions : String
  sharedBy : Nat
deriving Repr, DecidableEq

/-- One `currentViewers` presence entry (snippetSchema.currentViewers). -/
structure ViewerEntry where
  user : Nat
  lastSeen : Int
  socketId : String
deriving Repr, DecidableEq

/-- A snippet document (snippetSchema of src/unnamed/part_004). -/
structure Snippet where
  id : Nat
  title : String
  content : String
  language : String
  description : String
  author : Nat
  organization : String
  shareId : String
  visibility : String
  tags : List String
  views : Nat
  isActive : Bool
  sharedWith : List ShareEntry
  currentViewers : List ViewerEntry
deriving Repr, DecidableEq

/-- The authenticated requester, as the auth middleware puts it on `req.user`. -/
structure Requester where
  userId : Nat
  organization : String
deriving Repr, DecidableEq

/-- Outcome of a route: 200 with a JSON payload, 404 not found, 403 forbidden. -/
inductive Response (α : Type) where
  | ok (val : α)
  | notFound
  | forbidden
deriving Repr, DecidableEq

/-- Mongoose `save` on a loaded document: replace the document with this id. -/
def saveSnippet (store : List Snippet) (s : Snippet) : List Snippet :=
  store.map (fun t => if t.id == s.id then s else t)

/-- The `findOne \x7b _id, isActive: true \x7d` lookup common to several routes. -/
def findActiveById (store : List Snippet) (id : Nat) : Option Snippet :=
  store.find? (fun s => s.id == id && s.isActive)

/-- The staleness window of cleanupViewers: 5 * 60 * 1000 milliseconds. -/
def fiveMinutesMs : Int := 5 * 60 * 1000

/-- snippetSchema.methods.cleanupViewers: keep only viewers whose lastSeen is
strictly newer than five minutes ago, then save. -/
def cleanupViewers (s : Snippet) (now : Int) : Snippet :=
  { s with currentViewers :=
      s.currentViewers.filter (fun v => v.lastSeen > now - fiveMinutesMs) }

/-- GET /api/snippets/:id (router.get of snippets.js, line 1002): load the
active snippet, compute isAuthor / isSharedUser / hasOrgAccess / isPublic,
return 403 only when all four are false AND the visibility is private
(any other visibility falls through to the 200 response), then prune
viewers and answer with the document plus the requester's sharing info. -/
def getById (store : List Snippet) (u : Requester) (id : Nat) (now : Int) :
    Response (Snippet × Option ShareEntry) × List Snippet :=
  match findActiveById store id with
  | none => (Response.notFound, store)
  | some snippet =>
    let isAuthor := snippet.author == u.userId
    let isSharedUser := snippet.sharedWith.any (fun sh => sh.user == some u.userId)
    let hasOrgAccess := snippet.visibility == "organization" &&
        snippet.organization == u.organization
    let isPublic := snippet.visibility == "public"
    if (!isAuthor && !isSharedUser && !hasOrgAccess && !isPublic) &&
        snippet.visibility == "private" then
      (Response.forbidden, store)
    else
      let cleaned := cleanupViewers snippet now
      let sharingInfo :=
        if isSharedUser then
          snippet.sharedWith.find? (fun sh => sh.user == some u.userId)
        else none
      (Response.ok (cleaned, sharingInfo), saveSnippet store cleaned)

/-- The body of PUT /api/snippets/:id: any subset of the schema's assignable
fields may be present; `Object.assign(snippet, req.body)` copies every
present field onto the document, whitelisted or not. -/
structure UpdateBody where
  title : Option String := none
  content : Option String := none
  language : Option String := none
  description : Option String := none
  visibility : Option String := none
  tags : Option (List String) := none
  shareId : Option String := none
  views : Option Nat := none
  isActive : Option Bool := none
  author : Option Nat := none
  organization : Option String := none
  sharedWith : Option (List ShareEntry) := none
  currentViewers : Option (List ViewerEntry) := none
deriving Repr, DecidableEq

/-- Object.assign(snippet, req.body): each field present in the body
overwrites the document's field. -/
def objectAssign (s : Snippet) (b : UpdateBody) : Snippet :=
  { s with
    title := b.title.getD s.title
    content := b.content.getD s.content
    language := b.language.getD s.language
    description := b.description.getD s.description
    visibility := b.visibility.getD s.visibility
    tags := b.tags.getD s.tags
    shareId := b.shareId.getD s.shareId
    views := b.views.getD s.views
    isActive := b.isActive.getD s.isActive
    author := b.author.getD s.author
    organization := b.organization.getD s.organization
    sharedWith := b.sharedWith.getD s.sharedWith
    currentViewers := b.currentViewers.getD s.currentViewers }

/-- PUT /api/snippets/:id (snippets.js line 1060): findOne by id AND
author = requester AND isActive, then Object.assign the whole body and save. -/
def updateRoute (store : List Snippet) (u : Requester) (id : Nat) (body : UpdateBody) :
    Response Snippet × List Snippet :=
  match store.find? (fun s => s.id == id && s.author == u.userId && s.isActive) with
  | none => (Response.notFound, store)
  | some snippet =>
    let updated := objectAssign snippet body
    (Response.ok updated, saveSnippet store updated)

/-- DELETE /api/snippets/:id (snippets.js line 1110): findOne by id AND
author = requester, with no isActive condition; set isActive to false. -/
def deleteRoute (store : List Snippet) (u : Requester) (id : Nat) :
    Response String × List Snippet :=
  match store.find? (fun s => s.id == id && s.author == u.userId) with
  | none => (Response.notFound, store)
  | some snippet =>
    let deleted := { snippet with isActive := false }
    (Response.ok ("Snippet deleted"), saveSnippet store deleted)

/-- GET /api/snippets/share/:shareId (snippets.js line 559): the share-link
access test. Private and organization snippets require an authenticated
requester of the snippet's organization; public snippets pass. -/
def shareLinkDenied (snippet : Snippet) (u : Option Requester) : Bool :=
  if snippet.visibility == "private" then
    match u with
    | none => true
    | some r => snippet.organization != r.organization
  else if snippet.visibility == "organization" then
    match u with
    | none => true
    | some r => snippet.organization != r.organization
  else false

/-- GET /api/snippets/share/:shareId: load the active snippet by shareId,
apply the share-link access test, then increment views, save and answer. -/
def getByShareId (store : List Snippet) (u : Option Requester) (sid : String) :
    Response Snippet × List Snippet :=
  match store.find? (fun s => s.shareId == sid && s.isActive) with
  | none => (Response.notFound, store)
  | some snippet =>
    if shareLinkDenied snippet u then (Response.forbidden, store)
    else
      let viewed := { snippet with views := snippet.views + 1 }
      (Response.ok viewed, saveSnippet store viewed)

/-- One element of the `sharedWith` array of the share route's response:
the email branch pushes an email and a found flag, the username branch
pushes a username and the resolved email. -/
inductive SharedOut where
  | byEmail (email : String) (found : Bool)
  | byUsername (username : String) (email : String)
deriving Repr, DecidableEq

/-- One element of the `notFound` array of the share route's response. -/
inductive TargetRef where
  | email (value : String)
  | username (value : String)
deriving Repr, DecidableEq

/-- The JSON payload of a successful POST /api/snippets/:id/share. The
response has exactly the fields sharedWith, notFound and totalSharedUsers
(plus a constant message); there is no alreadyShared field. -/
structure ShareResult where
  sharedWith : List SharedOut
  notFound : List TargetRef
  totalSharedUsers : Nat
deriving Repr, DecidableEq

/-- JavaScript String.prototype.trim: strip whitespace from both ends.
Written over the character list so that it reduces in the kernel (Lean's
own String.trim is defined by well-founded recursion and does not). -/
def jsTrim (s : String) : String :=
  ⟨((s.data.dropWhile Char.isWhitespace).reverse.dropWhile
      Char.isWhitespace).reverse⟩

/-- User.findOne on a trimmed email with isActive true. -/
def findUserByEmail (users : List UserRec) (e : String) : Option UserRec :=
  users.find? (fun w => w.email == jsTrim e && w.isActive)

/-- User.findOne on a trimmed username within the granter's organization. -/
def findUserByUsername (users : List UserRec) (n : String) (org : String) :
    Option UserRec :=
  users.find? (fun w => w.username == jsTrim n && w.organization == org && w.isActive)

/-- The alreadyShared test of the email branch: an existing entry whose
resolved user equals the (optionally) resolved target, or whose stored
email equals the trimmed input email. -/
def emailAlreadyShared (ledger : List ShareEntry) (resolved : Option UserRec)
    (e : String) : Bool :=
  ledger.any (fun sh =>
    (match sh.user, resolved with
     | some su, some w => su == w.uid
     | _, _ => false) || sh.email == jsTrim e)

/-- The email loop of POST /:id/share, threading the snippet, a fresh
subdocument-id counter and the two output arrays. When the target is not
already shared a new ledger entry is appended; when the email resolves to
no user it is reported in notFound regardless. -/
def processEmails (users : List UserRec) (granterId : Nat) (perm : String) :
    List String → Snippet → Nat → List SharedOut → List TargetRef →
    Snippet × Nat × List SharedOut × List TargetRef
  | [], s, ctr, outs, nf => (s, ctr, outs, nf)
  | e :: rest, s, ctr, outs, nf =>
    let resolved := findUserByEmail users e
    let already := emailAlreadyShared s.sharedWith resolved e
    let s1 := if already then s else
      { s with sharedWith := s.sharedWith ++
          [⟨ctr, resolved.map (fun w => w.uid), jsTrim e, perm, granterId⟩] }
    let ctr1 := if already then ctr else ctr + 1
    let outs1 := if already then outs else
      outs ++ [SharedOut.byEmail (jsTrim e) resolved.isSome]
    let nf1 := if resolved.isSome then nf else nf ++ [TargetRef.email (jsTrim e)]
    processEmails users granterId perm rest s1 ctr1 outs1 nf1

/-- The username loop of POST /:id/share: usernames resolve only inside the
granter's organization; unresolved names go to notFound, resolved and not
already shared ones get a ledger entry carrying the user's email. -/
def processUsernames (users : List UserRec) (granterId : Nat) (org : String)
    (perm : String) :
    List String → Snippet → Nat → List SharedOut → List TargetRef →
    Snippet × Nat × List SharedOut × List TargetRef
  | [], s, ctr, outs, nf => (s, ctr, outs, nf)
  | n :: rest, s, ctr, outs, nf =>
    match findUserByUsername users n org with
    | some w =>
      let already := s.sharedWith.any (fun sh => sh.user == some w.uid)
      if already then
        processUsernames users granterId org perm rest s ctr outs nf
      else
        processUsernames users granterId org perm rest
          { s with sharedWith := s.sharedWith ++
              [⟨ctr, some w.uid, w.email, perm, granterId⟩] }
          (ctr + 1) (outs ++ [SharedOut.byUsername (jsTrim n) w.email]) nf
    | none =>
      processUsernames users granterId org perm rest s ctr outs
        (nf ++ [TargetRef.username (jsTrim n)])

/-- POST /api/snippets/:id/share (snippets.js line 594): owner-only lookup
(findOne by id AND author AND isActive), then the email loop followed by the
username loop over the same accumulators, then save and respond. -/
def shareRoute (store : List Snippet) (users : List UserRec) (u : Requester)
    (id : Nat) (emails usernames : List String) (permissions : String)
    (ctr : Nat) : Response ShareResult × List Snippet × Nat :=
  match store.find? (fun s => s.id == id && s.author == u.userId && s.isActive) with
  | none => (Response.notFound, store, ctr)
  | some snippet =>
    match processEmails users u.userId permissions emails snippet ctr [] [] with
    | (s1, ctr1, outs1, nf1) =>
      match processUsernames users u.userId u.organization permissions
          usernames s1 ctr1 outs1 nf1 with
      | (s2, ctr2, outs2, nf2) =>
        (Response.ok { sharedWith := outs2
                       notFound := nf2
                       totalSharedUsers := s2.sharedWith.length },
         saveSnippet store s2, ctr2)

/-- DELETE /api/snippets/:id/share/:shareEntryId (snippets.js line 826):
owner-only lookup, then filter the ledger by subdocument id and save;
the response is the same success message whether or not anything matched. -/
def revokeRoute (store : List Snippet) (u : Requester) (id : Nat)
    (shareEntryId : Nat) : Response String × List Snippet :=
  match store.find? (fun s => s.id == id && s.author == u.userId && s.isActive) with
  | none => (Response.notFound, store)
  | some snippet =>
    let pruned := { snippet with sharedWith :=
        snippet.sharedWith.filter (fun sh => sh.sid != shareEntryId) }
    (Response.ok ("User removed from sharing list"), saveSnippet store pruned)

/-- POST /api/snippets/:id/join-view (snippets.js line 892): load the active
snippet, deny 403 unless author / shared / same-org organization-visible /
public, then replace the requester's viewer entry, prune and respond. -/
def joinViewRoute (store : List Snippet) (u : Requester) (id : Nat)
    (socketId : String) (now : Int) :
    Response (List ViewerEntry) × List Snippet :=
  match findActiveById store id with
  | none => (Response.notFound, store)
  | some snippet =>
    let isAuthor := snippet.author == u.userId
    let isSharedUser := snippet.sharedWith.any (fun sh => sh.user == some u.userId)
    let hasOrgAccess := snippet.visibility == "organization" &&
        snippet.organization == u.organization
    let isPublic := snippet.visibility == "public"
    if !isAuthor && !isSharedUser && !hasOrgAccess && !isPublic then
      (Response.forbidden, store)
    else
      let without := snippet.currentViewers.filter (fun v => v.user != u.userId)
      let joined := { snippet with currentViewers :=
          without ++ [⟨u.userId, now, socketId⟩] }
      let cleaned := cleanupViewers joined now
      (Response.ok cleaned.currentViewers, saveSnippet store cleaned)

/-- GET /api/snippets/:id/viewers (snippets.js line 974): load the active
snippet, prune stale viewers, respond with the remaining list. The
requester is never consulted beyond authentication. -/
def getViewersRoute (store : List Snippet) (u : Requester) (id : Nat)
    (now : Int) : Response (List ViewerEntry) × List Snippet :=
  match findActiveById store id with
  | none => (Response.notFound, store)
  | some snippet =>
    let cleaned := cleanupViewers snippet now
    (Response.ok cleaned.currentViewers, saveSnippet store cleaned)

/-- The query-time visibility filter of GET /api/snippets/search
(snippets.js lines 442 and 496): organization and isActive from the base
query, plus the `$or` of public, organization, and own private. -/
def searchVisibilityFilter (u : Requester) (s : Snippet) : Bool :=
  s.organization == u.organization && s.isActive &&
    (s.visibility == "public" || s.visibility == "organization" ||
      (s.visibility == "private" && s.author == u.userId))

/-- The operations of the spec's Access Control Evaluator. -/
inductive Operation where
  | read | update | delete | manageSharing | joinPresence
deriving Repr, DecidableEq

/-- A decision of the spec's Access Control Evaluator. -/
inductive Decision where
  | allow | denyNotFound | denyForbidden
deriving Repr, DecidableEq

/-- Modelled from the spec: the Access Control Evaluator `decide` of spec
section 4.1 (the repo has no such single function; its route handlers inline
fragments of it). Rules in precedence order: inactive is not_found; owner is
allowed everything; manage_sharing and delete are owner-only; a grant naming
the requester allows read and join_presence, and update when some grant for
them carries edit permission; public allows read and join_presence to
anyone; organization visibility allows read and join_presence to
authenticated same-organization requesters; otherwise forbidden. -/
def specDecide (s : Snippet) (u : Option Requester) (op : Operation) : Decision :=
  if !s.isActive then Decision.denyNotFound
  else if (match u with | some r => s.author == r.userId | none => false) then
    Decision.allow
  else if op == Operation.manageSharing || op == Operation.delete then
    Decision.denyForbidden
  else if (match u with
      | some r => s.sharedWith.any (fun sh => sh.user == some r.userId)
      | none => false) then
    if op == Operation.read || op == Operation.joinPresence then Decision.allow
    else if op == Operation.update &&
        (match u with
         | some r => s.sharedWith.any (fun sh =>
             sh.user == some r.userId && sh.permissions == "edit")
         | none => false) then Decision.allow
    else Decision.denyForbidden
  else if s.visibility == "public" &&
      (op == Operation.read || op == Operation.joinPresence) then Decision.allow
  else if s.visibility == "organization" &&
      (match u with | some r => s.organization == r.organization | none => false) &&
      (op == Operation.read || op == Operation.joinPresence) then Decision.allow
  else Decision.denyForbidden

/-- Modelled from the spec: the rule set of section 4.1 restricted to what
section 4.4 says the search filter applies, namely "public, organization, or
own-private" — that is, specDecide with the share-grant rule 4 removed. -/
def specDecideVisOnly (s : Snippet) (u : Option Requester) (op : Operation) :
    Decision :=
  if !s.isActive then Decision.denyNotFound
  else if (match u with | some r => s.author == r.userId | none => false) then
    Decision.allow
  else if op == Operation.manageSharing || op == Operation.delete then
    Decision.denyForbidden
  else if s.visibility == "public" &&
      (op == Operation.read || op == Operation.joinPresence) then Decision.allow
  else if s.visibility == "organization" &&
      (match u with | some r => s.organization == r.organization | none => false) &&
      (op == Operation.read || op == Operation.joinPresence) then Decision.allow
  else Decision.denyForbidden

/-!
Helper lemmas about the store primitives, shared by the claim theorems.
-/

theorem find?_eq_some_of_unique {α : Type} {l : List α} {p : α → Bool} {s : α}
    (hmem : s ∈ l) (hp : p s = true) (huniq : ∀ t ∈ l, p t = true → t = s) :
    l.find? p = some s := by
  induction l with
  | nil => cases hmem
  | cons a l ih =>
    rcases List.mem_cons.mp hmem with h | h
    · subst h
      exact List.find?_cons_of_pos _ hp
    · by_cases ha : p a = true
      · have haeq := huniq a (List.mem_cons_self a l) ha
        subst haeq
        exact List.find?_cons_of_pos _ hp
      · rw [List.find?_cons_of_neg _ (by simpa using ha)]
        exact ih h (fun t ht hpt => huniq t (List.mem_cons_of_mem _ ht) hpt)

theorem saveSnippet_self {store : List Snippet} {s : Snippet}
    (huniq : ∀ t ∈ store, t.id = s.id → t = s) :
    saveSnippet store s = store := by
  unfold saveSnippet
  induction store with
  | nil => rfl
  | cons a l ih =>
    simp only [List.map_cons, List.cons.injEq]
    constructor
    · by_cases h : a.id = s.id
      · have := huniq a (List.mem_cons_self a l) h
        simp [h, this]
      · simp [h]
    · exact ih (fun t ht hti => huniq t (List.mem_cons_of_mem _ ht) hti)

theorem mem_saveSnippet {store : List Snippet} {s s1 : Snippet}
    (hmem : s ∈ store) (hid : s1.id = s.id) : s1 ∈ saveSnippet store s1 := by
  unfold saveSnippet
  refine List.mem_map.mpr ⟨s, hmem, ?_⟩
  simp [hid]

theorem saveSnippet_uniq {store : List Snippet} {s1 : Snippet} :
    ∀ t ∈ saveSnippet store s1, t.id = s1.id → t = s1 := by
  intro t ht htid
  rcases List.mem_map.mp ht with ⟨t0, _, rfl⟩
  by_cases h : t0.id = s1.id
  · simp [h]
  · simp only [beq_iff_eq] at htid ⊢
    rw [if_neg (by simpa using h)] at htid ⊢
    exact absurd htid h

/-!
Sample documents used by the concrete counterexamples and witnesses.
-/

/-- A plain private snippet owned by user 1 of organization acme. -/
def baseSnippet : Snippet :=
  { id := 1
    title := "t"
    content := "c"
    language := "js"
    description := ""
    author := 1
    organization := "acme"
    shareId := "sid-1"
    visibility := "private"
    tags := []
    views := 0
    isActive := true
    sharedWith := []
    currentViewers := [] }

def c1Snippet : Snippet := { baseSnippet with visibility := "organization" }

def c1Outsider : Requester := { userId := 2, organization := "globex" }

/-- C1: for an active organization-visibility snippet, an authenticated
requester who is not the owner, holds no grant, and belongs to a different
organization must get Forbidden from get-by-id and never the body (spec
section 4.1 rule 6, section 8 scenario). The handler only answers 403 when
the visibility is private, so this requester receives the full snippet body:
the code contradicts the spec. This theorem evaluates the route at such an
input and shows the 200 response carrying the body. -/
theorem c1_get_by_id_leaks_org_snippet_across_orgs :
    c1Snippet.isActive = true ∧
    c1Snippet.visibility = "organization" ∧
    (c1Snippet.author == c1Outsider.userId) = false ∧
    c1Snippet.sharedWith = [] ∧
    (c1Snippet.organization == c1Outsider.organization) = false ∧
    (getById [c1Snippet] c1Outsider 1 0).1 =
      Response.ok (c1Snippet, none) :=
  ⟨rfl, rfl, rfl, rfl, rfl, rfl⟩

def c2Owner : Requester := { userId := 1, organization := "acme" }

def c2Body : UpdateBody :=
  { views := some 999, shareId := some "evil", isActive := some false }

/-- C2: the spec restricts the owner update to the whitelisted fields title,
content, language, description, visibility, tags, and declares shareId
immutable and views monotone. The handler instead runs
Object.assign(snippet, req.body), so a body carrying views, shareId and
isActive overwrites all three stored fields: the code contradicts the spec.
This theorem evaluates the route at such a body. -/
theorem c2_update_mass_assignment_changes_non_whitelisted_fields :
    baseSnippet.views = 0 ∧ baseSnippet.shareId = "sid-1" ∧
    baseSnippet.isActive = true ∧
    (updateRoute [baseSnippet] c2Owner 1 c2Body).1 =
      Response.ok
        { baseSnippet with views := 999, shareId := "evil", isActive := false } :=
  ⟨rfl, rfl, rfl, rfl⟩

def c3Snippet : Snippet :=
  { baseSnippet with sharedWith := [⟨0, some 2, "a@x.com", "edit", 1⟩] }

def c3Grantee : Requester := { userId := 2, organization := "acme" }

def c3Body : UpdateBody := { title := some "new title" }

/-- C3 counterexample: a requester holding an edit share grant on an active
snippet they do not own is claimed to be allowed to update it; the update
handler looks the snippet up with author = requester, so the grantee gets
404 and the snippet is untouched. -/
theorem c3_edit_grantee_update_denied :
    c3Snippet.isActive = true ∧
    (c3Snippet.sharedWith.any
      (fun sh => sh.user == some c3Grantee.userId && sh.permissions == "edit")) = true ∧
    (c3Snippet.author == c3Grantee.userId) = false ∧
    updateRoute [c3Snippet] c3Grantee 1 c3Body = (Response.notFound, [c3Snippet]) :=
  ⟨rfl, rfl, rfl, rfl⟩

/-- C3 amended: the update operation is owner-only; a requester who is not
the owner — even one holding an edit share grant — receives not_found and
the store is unchanged, and a requester with no grant and no ownership
likewise cannot update. -/
theorem c3_update_requires_ownership (store : List Snippet) (u : Requester)
    (id : Nat) (body : UpdateBody)
    (h : ∀ s ∈ store, s.id = id → s.author ≠ u.userId) :
    updateRoute store u id body = (Response.notFound, store) := by
  unfold updateRoute
  have hnone : store.find?
      (fun s => s.id == id && s.author == u.userId && s.isActive) = none := by
    apply List.find?_eq_none.mpr
    intro s hs hp
    simp only [Bool.and_eq_true, beq_iff_eq] at hp
    exact h s hs hp.1.1 hp.1.2
  rw [hnone]

/-- C3 amended, witness: the edit grantee of the counterexample state is a
concrete non-owner, and the theorem applied there yields not_found. -/
theorem c3_update_requires_ownership_witness :
    (∀ s ∈ [c3Snippet], s.id = 1 → s.author ≠ c3Grantee.userId) ∧
    updateRoute [c3Snippet] c3Grantee 1 c3Body = (Response.notFound, [c3Snippet]) :=
  ⟨by decide, c3_update_requires_ownership [c3Snippet] c3Grantee 1 c3Body (by decide)⟩

def c7Snippet : Snippet :=
  { baseSnippet with sharedWith := [⟨5, some 2, "a@x.com", "view", 1⟩] }

def c7Owner : Requester := { userId := 1, organization := "acme" }

/-- C7 counterexample: revoking a grant id absent from the ledger is claimed
to report not_found; the handler filters the ledger (removing nothing) and
answers the unconditional success message. -/
theorem c7_revoke_missing_grant_reports_success :
    (c7Snippet.sharedWith.all (fun sh => sh.sid != 99)) = true ∧
    revokeRoute [c7Snippet] c7Owner 1 99 =
      (Response.ok ("User removed from sharing list"), [c7Snippet]) :=
  ⟨rfl, rfl⟩

/-- C7 amended: for an active snippet owned by the requester and a grant id
not present in the ledger, the revoke operation leaves the ledger (indeed
the whole store) unchanged, never raises a hard error, and reports success
rather than not_found. -/
theorem c7_revoke_missing_grant_is_noop_success (store : List Snippet)
    (s : Snippet) (u : Requester) (id gid : Nat)
    (hmem : s ∈ store) (hid : s.id = id) (hauthor : s.author = u.userId)
    (hact : s.isActive = true)
    (huniq : ∀ t ∈ store, t.id = id → t = s)
    (hmiss : ∀ sh ∈ s.sharedWith, sh.sid ≠ gid) :
    revokeRoute store u id gid =
      (Response.ok ("User removed from sharing list"), store) := by
  have hfind : store.find?
      (fun t => t.id == id && t.author == u.userId && t.isActive) = some s := by
    apply find?_eq_some_of_unique hmem
    · simp [hid, hauthor, hact]
    · intro t ht hpt
      simp only [Bool.and_eq_true, beq_iff_eq] at hpt
      exact huniq t ht hpt.1.1
  unfold revokeRoute
  rw [hfind]
  have hfilter : s.sharedWith.filter (fun sh => sh.sid != gid) = s.sharedWith := by
    apply List.filter_eq_self.mpr
    intro sh hsh
    simpa using hmiss sh hsh
  have hsame : ({ s with sharedWith :=
      s.sharedWith.filter (fun sh => sh.sid != gid) } : Snippet) = s := by
    rw [hfilter]
  show (Response.ok ("User removed from sharing list"),
      saveSnippet store
        { s with sharedWith := s.sharedWith.filter (fun sh => sh.sid != gid) }) =
    (Response.ok ("User removed from sharing list"), store)
  rw [hsame, saveSnippet_self (fun t ht hti => huniq t ht (hti.trans hid))]

/-- C7 amended, witness: the concrete ledger of the counterexample has no
grant with id 99, and the theorem applied there reports success with the
store unchanged. -/
theorem c7_revoke_missing_grant_is_noop_success_witness :
    (∀ sh ∈ c7Snippet.sharedWith, sh.sid ≠ 99) ∧
    revokeRoute [c7Snippet] c7Owner 1 99 =
      (Response.ok ("User removed from sharing list"), [c7Snippet]) :=
  ⟨by decide,
   c7_revoke_missing_grant_is_noop_success [c7Snippet] c7Snippet c7Owner 1 99
     (by simp) (by decide) (by decide) (by decide) (by decide) (by decide)⟩

def c8Snippet : Snippet :=
  { baseSnippet with author := 3, sharedWith := [⟨0, some 2, "b@x.com", "view", 3⟩] }

def c8Requester : Requester := { userId := 2, organization := "acme" }

/-- C8 counterexample: a private, active snippet of the requester's
organization owned by someone else but carrying a share grant for the
requester is readable per the full section 4.1 evaluation (rule 4), yet the
search route's query-time visibility filter (public / organization /
own-private, with no grant clause) excludes it, so the two result sets are
not equal, refuting the claimed equivalence. -/
theorem c8_search_filter_misses_granted_private :
    c8Snippet.organization = c8Requester.organization ∧
    c8Snippet.isActive = true ∧
    specDecide c8Snippet (some c8Requester) Operation.read = Decision.allow ∧
    searchVisibilityFilter c8Requester c8Snippet = false :=
  ⟨rfl, rfl, rfl, rfl⟩

/-- C8 amended: the search route's query-time visibility filter equals the
per-record evaluation of the section 4.1 rules WITHOUT the share-grant rule
(public, organization, or own-private, as section 4.4 itself words the
filter) over the requester's organization; share grants are the one
divergence from the full rule set. The visibility hypothesis is the
schema's enum invariant. -/
theorem c8_search_filter_matches_grant_free_rules (u : Requester) (s : Snippet)
    (hvis : s.visibility = "private" ∨ s.visibility = "organization" ∨
      s.visibility = "public") :
    (searchVisibilityFilter u s = true) ↔
      (s.organization = u.organization ∧
       specDecideVisOnly s (some u) Operation.read = Decision.allow) := by
  unfold searchVisibilityFilter specDecideVisOnly
  cases hact : s.isActive <;>
    rcases hvis with h | h | h <;>
      rw [h] <;>
        by_cases hauth : s.author = u.userId <;>
          by_cases horg : s.organization = u.organization <;>
            simp [hact, hauth, horg]

/-- C8 amended, witness: at the counterexample state the filter disagrees
with nothing in the grant-free rule set: the snippet is private and not
owned by the requester, so both sides are false. -/
theorem c8_search_filter_matches_grant_free_rules_witness :
    (c8Snippet.visibility = "private" ∨ c8Snippet.visibility = "organization" ∨
      c8Snippet.visibility = "public") ∧
    ((searchVisibilityFilter c8Requester c8Snippet = true) ↔
      (c8Snippet.organization = c8Requester.organization ∧
       specDecideVisOnly c8Snippet (some c8Requester) Operation.read =
         Decision.allow)) :=
  ⟨Or.inl rfl,
   c8_search_filter_matches_grant_free_rules c8Requester c8Snippet (Or.inl rfl)⟩

/-- C5: an active private snippet reached through its shareId is returned
(with its view counter bumped) to any authenticated requester of the
snippet's organization, while an authenticated requester of another
organization and an anonymous requester both get Forbidden. -/
theorem c5_private_share_link_access (store : List Snippet) (s : Snippet)
    (sid : String) (rIn rOut : Requester)
    (hmem : s ∈ store) (hact : s.isActive = true) (hsid : s.shareId = sid)
    (huniq : ∀ t ∈ store, t.shareId = sid → t = s)
    (hpriv : s.visibility = "private")
    (hin : rIn.organization = s.organization)
    (hout : rOut.organization ≠ s.organization) :
    (getByShareId store (some rIn) sid).1 =
        Response.ok { s with views := s.views + 1 } ∧
    (getByShareId store (some rOut) sid).1 = Response.forbidden ∧
    (getByShareId store none sid).1 = Response.forbidden := by
  have hfind : store.find? (fun t => t.shareId == sid && t.isActive) = some s := by
    apply find?_eq_some_of_unique hmem
    · simp [hsid, hact]
    · intro t ht hpt
      simp only [Bool.and_eq_true, beq_iff_eq] at hpt
      exact huniq t ht hpt.1
  have hdIn : shareLinkDenied s (some rIn) = false := by
    unfold shareLinkDenied
    simp [hpriv, hin]
  have hdOut : shareLinkDenied s (some rOut) = true := by
    unfold shareLinkDenied
    simp [hpriv]
    exact fun hc => absurd hc.symm hout
  have hdNone : shareLinkDenied s none = true := by
    unfold shareLinkDenied
    simp [hpriv]
  refine ⟨?_, ?_, ?_⟩
  · simp [getByShareId, hfind, hdIn]
  · simp [getByShareId, hfind, hdOut]
  · simp [getByShareId, hfind, hdNone]

def c5Snippet : Snippet := baseSnippet

def c5Insider : Requester := { userId := 9, organization := "acme" }

def c5Outsider : Requester := { userId := 2, organization := "globex" }

/-- C5 witness: concrete private snippet, a same-organization non-owner gets
the body with views bumped, a different-organization requester and the
anonymous caller get Forbidden. -/
theorem c5_private_share_link_access_witness :
    c5Snippet.isActive = true ∧ c5Snippet.visibility = "private" ∧
    (getByShareId [c5Snippet] (some c5Insider) "sid-1").1 =
        Response.ok { c5Snippet with views := c5Snippet.views + 1 } ∧
    (getByShareId [c5Snippet] (some c5Outsider) "sid-1").1 = Response.forbidden ∧
    (getByShareId [c5Snippet] none "sid-1").1 = Response.forbidden := by
  have h := c5_private_share_link_access [c5Snippet] c5Snippet "sid-1"
    c5Insider c5Outsider (by simp) (by decide) (by decide) (by decide)
    (by decide) (by decide) (by decide)
  exact ⟨rfl, rfl, h.1, h.2.1, h.2.2⟩

def c4Owner : Requester := { userId := 1, organization := "acme" }

/-- C4 counterexample: the delete lookup has no isActive condition, so the
owner's second delete of the same snippet finds the soft-deleted document
and answers the success message again instead of the claimed not_found. -/
theorem c4_repeated_delete_succeeds :
    (deleteRoute [baseSnippet] c4Owner 1).1 = Response.ok ("Snippet deleted") ∧
    (deleteRoute (deleteRoute [baseSnippet] c4Owner 1).2 c4Owner 1).1 =
      Response.ok ("Snippet deleted") :=
  ⟨rfl, rfl⟩

/-- C4 amended: on a soft-deleted snippet, get-by-id, update, share,
unshare, join-view and get-viewers answer not_found for EVERY requester —
the former owner included, since the inner quantifier ranges over all of
them; the one exception is the delete operation invoked by a requester who
is the snippet's author: its lookup ignores isActive, so the repeated owner
delete succeeds again. -/
theorem c4_inactive_snippet_all_ops_not_found (store : List Snippet)
    (s : Snippet) (id : Nat) (users : List UserRec)
    (body : UpdateBody) (emails usernames : List String) (perm : String)
    (ctr gid : Nat) (socketId : String) (now : Int)
    (hmem : s ∈ store) (hid : s.id = id) (hinactive : s.isActive = false)
    (hall : ∀ t ∈ store, t.id = id → t.isActive = false)
    (huniq : ∀ t ∈ store, t.id = id → t = s) :
    (∀ u : Requester,
      (getById store u id now).1 = Response.notFound ∧
      (updateRoute store u id body).1 = Response.notFound ∧
      (shareRoute store users u id emails usernames perm ctr).1 =
        Response.notFound ∧
      (revokeRoute store u id gid).1 = Response.notFound ∧
      (joinViewRoute store u id socketId now).1 = Response.notFound ∧
      (getViewersRoute store u id now).1 = Response.notFound) ∧
    (∀ u : Requester, s.author = u.userId →
      (deleteRoute store u id).1 = Response.ok ("Snippet deleted")) := by
  have key : ∀ p : Snippet → Bool,
      (∀ t, p t = true → t.id = id ∧ t.isActive = true) →
      store.find? p = none := by
    intro p hp
    apply List.find?_eq_none.mpr
    intro t ht hpt
    have h1 := hp t hpt
    have h2 := hall t ht h1.1
    rw [h1.2] at h2
    exact Bool.noConfusion h2
  have hActive : findActiveById store id = none := by
    apply key
    intro t hpt
    simp only [Bool.and_eq_true, beq_iff_eq] at hpt
    exact hpt
  constructor
  · intro u
    have hOwnerActive : store.find?
        (fun t => t.id == id && t.author == u.userId && t.isActive) = none := by
      apply key
      intro t hpt
      simp only [Bool.and_eq_true, beq_iff_eq] at hpt
      exact ⟨hpt.1.1, hpt.2⟩
    refine ⟨?_, ?_, ?_, ?_, ?_, ?_⟩
    · unfold getById
      rw [hActive]
    · unfold updateRoute
      rw [hOwnerActive]
    · unfold shareRoute
      rw [hOwnerActive]
    · unfold revokeRoute
      rw [hOwnerActive]
    · unfold joinViewRoute
      rw [hActive]
    · unfold getViewersRoute
      rw [hActive]
  · intro u hauthor
    have hDelete : store.find?
        (fun t => t.id == id && t.author == u.userId) = some s := by
      apply find?_eq_some_of_unique hmem
      · simp [hid, hauthor]
      · intro t ht hpt
        simp only [Bool.and_eq_true, beq_iff_eq] at hpt
        exact huniq t ht hpt.1
    simp [deleteRoute, hDelete]

def c4Inactive : Snippet := { baseSnippet with isActive := false }

def c4Stranger : Requester := { userId := 42, organization := "globex" }

/-- C4 amended, witness: with the soft-deleted snippet in a one-element
store, the former owner's get-by-id answers not_found, a cross-organization
stranger is refused every operation with not_found as well, and the
repeated owner delete alone succeeds. -/
theorem c4_inactive_snippet_all_ops_not_found_witness :
    c4Inactive.isActive = false ∧
    (c4Inactive.author == c4Owner.userId) = true ∧
    (c4Inactive.author == c4Stranger.userId) = false ∧
    (getById [c4Inactive] c4Owner 1 0).1 = Response.notFound ∧
    (getById [c4Inactive] c4Stranger 1 0).1 = Response.notFound ∧
    (updateRoute [c4Inactive] c4Stranger 1 c2Body).1 = Response.notFound ∧
    (shareRoute [c4Inactive] [] c4Stranger 1 [] [] "view" 0).1 =
      Response.notFound ∧
    (revokeRoute [c4Inactive] c4Stranger 1 0).1 = Response.notFound ∧
    (joinViewRoute [c4Inactive] c4Stranger 1 "sock" 0).1 = Response.notFound ∧
    (getViewersRoute [c4Inactive] c4Stranger 1 0).1 = Response.notFound ∧
    (deleteRoute [c4Inactive] c4Owner 1).1 = Response.ok ("Snippet deleted") :=
  have h := c4_inactive_snippet_all_ops_not_found [c4Inactive] c4Inactive 1 []
    c2Body [] [] "view" 0 0 "sock" 0 (List.mem_singleton.mpr rfl) (by decide)
    (by decide) (by decide) (by decide)
  ⟨rfl, rfl, rfl, (h.1 c4Owner).1, (h.1 c4Stranger).1, (h.1 c4Stranger).2.1,
   (h.1 c4Stranger).2.2.1, (h.1 c4Stranger).2.2.2.1, (h.1 c4Stranger).2.2.2.2.1,
   (h.1 c4Stranger).2.2.2.2.2, h.2 c4Owner (by decide)⟩

def c9Viewer : ViewerEntry := { user := 7, lastSeen := 0, socketId := "sock" }

def c9Snippet : Snippet :=
  { baseSnippet with visibility := "public", currentViewers := [c9Viewer] }

def c9Requester : Requester := { userId := 8, organization := "acme" }

/-- The snippet as join-view rewrites it before pruning: the requester's
old entries removed, a fresh entry appended (definitionally equal to the
intermediate value of joinViewRoute). -/
def joinedSnippet (s : Snippet) (u : Requester) (now : Int) (socketId : String) :
    Snippet :=
  { s with currentViewers :=
      s.currentViewers.filter (fun w => w.user != u.userId) ++
        [⟨u.userId, now, socketId⟩] }

/-- C9: a presence entry whose lastSeen lies strictly more than five minutes
before now is absent from the viewer list produced by the next get-viewers
call, and from the list produced by the next join-view call, for any
requester (cleanupViewers keeps only entries with lastSeen newer than five
minutes ago). -/
theorem c9_stale_viewer_absent_after_list_or_join (store : List Snippet)
    (s : Snippet) (u : Requester) (id : Nat) (now : Int) (v : ViewerEntry)
    (socketId : String)
    (hmem : s ∈ store) (hid : s.id = id) (hact : s.isActive = true)
    (huniq : ∀ t ∈ store, t.id = id → t = s)
    (hview : v ∈ s.currentViewers)
    (hstale : now - v.lastSeen > fiveMinutesMs) :
    ((getViewersRoute store u id now).1 =
        Response.ok ((cleanupViewers s now).currentViewers) ∧
      v ∉ (cleanupViewers s now).currentViewers) ∧
    (∀ res, (joinViewRoute store u id socketId now).1 = Response.ok res →
      v ∉ res) := by
  have hfresh : ∀ l : List ViewerEntry,
      v ∉ l.filter (fun w => w.lastSeen > now - fiveMinutesMs) := by
    intro l hvin
    have := (List.mem_filter.mp hvin).2
    have := of_decide_eq_true this
    omega
  have hfind : findActiveById store id = some s := by
    apply find?_eq_some_of_unique hmem
    · simp [hid, hact]
    · intro t ht hpt
      simp only [Bool.and_eq_true, beq_iff_eq] at hpt
      exact huniq t ht hpt.1
  constructor
  · constructor
    · unfold getViewersRoute
      rw [hfind]
    · exact hfresh s.currentViewers
  · intro res hres
    unfold joinViewRoute at hres
    rw [hfind] at hres
    have hres2 : (if (!(s.author == u.userId) &&
          !(s.sharedWith.any fun sh => sh.user == some u.userId) &&
          !(s.visibility == "organization" && s.organization == u.organization) &&
          !(s.visibility == "public")) = true then
          ((Response.forbidden : Response (List ViewerEntry)), store)
        else
          (Response.ok
            (cleanupViewers (joinedSnippet s u now socketId) now).currentViewers,
           saveSnippet store
            (cleanupViewers (joinedSnippet s u now socketId) now))).1 =
        Response.ok res := hres
    split at hres2
    · cases hres2
    · have hres3 := Response.ok.inj hres2
      rw [← hres3]
      exact hfresh _

/-- C9 witness: a viewer entry stamped at 0 is absent from the lists
produced at now = 300001 milliseconds on a concrete public snippet. -/
theorem c9_stale_viewer_absent_after_list_or_join_witness :
    c9Viewer ∈ c9Snippet.currentViewers ∧
    (300001 : Int) - c9Viewer.lastSeen > fiveMinutesMs ∧
    ((getViewersRoute [c9Snippet] c9Requester 1 300001).1 =
        Response.ok ((cleanupViewers c9Snippet 300001).currentViewers) ∧
      c9Viewer ∉ (cleanupViewers c9Snippet 300001).currentViewers) :=
  ⟨by simp [c9Snippet], by decide,
   (c9_stale_viewer_absent_after_list_or_join [c9Snippet] c9Snippet c9Requester
     1 300001 c9Viewer "s2" (by simp) (by decide) (by decide) (by decide)
     (by simp [c9Snippet]) (by decide)).1⟩

def c10Snippet : Snippet := { baseSnippet with currentViewers := [c9Viewer] }

def c10Outsider : Requester := { userId := 2, organization := "globex" }

/-- C10: the get-viewers route answers the pruned presence list of any
active snippet to every authenticated requester; the requester's identity,
organization, grants and the snippet's visibility are never consulted. The
requester u is universally quantified and absent from the right-hand side. -/
theorem c10_get_viewers_applies_no_access_check (store : List Snippet)
    (s : Snippet) (id : Nat) (now : Int) (u : Requester)
    (hmem : s ∈ store) (hid : s.id = id) (hact : s.isActive = true)
    (huniq : ∀ t ∈ store, t.id = id → t = s) :
    (getViewersRoute store u id now).1 =
      Response.ok ((cleanupViewers s now).currentViewers) := by
  have hfind : findActiveById store id = some s := by
    apply find?_eq_some_of_unique hmem
    · simp [hid, hact]
    · intro t ht hpt
      simp only [Bool.and_eq_true, beq_iff_eq] at hpt
      exact huniq t ht hpt.1
  unfold getViewersRoute
  rw [hfind]

/-- C10 witness: a different-organization requester with no grant on a
private snippet still receives the pruned viewer list. -/
theorem c10_get_viewers_applies_no_access_check_witness :
    c10Snippet.visibility = "private" ∧
    (c10Snippet.organization == c10Outsider.organization) = false ∧
    (c10Snippet.author == c10Outsider.userId) = false ∧
    c10Snippet.sharedWith = [] ∧
    (getViewersRoute [c10Snippet] c10Outsider 1 100).1 =
      Response.ok ((cleanupViewers c10Snippet 100).currentViewers) :=
  ⟨rfl, rfl, rfl, rfl,
   c10_get_viewers_applies_no_access_check [c10Snippet] c10Snippet 1 100
     c10Outsider (by simp) (by decide) (by decide) (by decide)⟩

/-- The snippet with the new pending-or-resolved email grant appended, as
the email branch of the share route builds it. -/
def appendEmailGrant (s : Snippet) (users : List UserRec) (e : String)
    (perm : String) (ctr : Nat) (gid : Nat) : Snippet :=
  { s with sharedWith := s.sharedWith ++
      [⟨ctr, (findUserByEmail users e).map (fun w => w.uid), jsTrim e, perm, gid⟩] }

theorem shareRoute_single_email_already (store : List Snippet)
    (users : List UserRec) (u : Requester) (id : Nat) (e perm : String)
    (ctr : Nat) (s : Snippet)
    (hfind : store.find?
      (fun t => t.id == id && t.author == u.userId && t.isActive) = some s)
    (hal : emailAlreadyShared s.sharedWith (findUserByEmail users e) e = true) :
    shareRoute store users u id [e] [] perm ctr =
      (Response.ok
        { sharedWith := []
          notFound := if (findUserByEmail users e).isSome then []
            else [TargetRef.email (jsTrim e)]
          totalSharedUsers := s.sharedWith.length },
       saveSnippet store s, ctr) := by
  simp only [shareRoute, hfind, processEmails, processUsernames, hal, if_true,
    List.nil_append]

theorem shareRoute_single_email_new (store : List Snippet)
    (users : List UserRec) (u : Requester) (id : Nat) (e perm : String)
    (ctr : Nat) (s : Snippet)
    (hfind : store.find?
      (fun t => t.id == id && t.author == u.userId && t.isActive) = some s)
    (hal : emailAlreadyShared s.sharedWith (findUserByEmail users e) e = false) :
    shareRoute store users u id [e] [] perm ctr =
      (Response.ok
        { sharedWith := [SharedOut.byEmail (jsTrim e) (findUserByEmail users e).isSome]
          notFound := if (findUserByEmail users e).isSome then []
            else [TargetRef.email (jsTrim e)]
          totalSharedUsers := s.sharedWith.length + 1 },
       saveSnippet store (appendEmailGrant s users e perm ctr u.userId),
       ctr + 1) := by
  simp only [shareRoute, hfind, processEmails, processUsernames, hal,
    appendEmailGrant, Bool.false_eq_true, if_false, List.length_append,
    List.length_cons, List.length_nil, List.nil_append]

/-- C6 counterexample: sharing the same unregistered email twice does keep
the ledger single-entry, but the second call's response reports the email
under notFound (the response has no alreadyShared field at all), refuting
the claimed alreadyShared reporting. -/
theorem c6_second_share_reports_not_found_not_already_shared :
    (shareRoute [baseSnippet] [] c2Owner 1 ["x@y.com"] [] "view" 0).2.1 =
      [{ baseSnippet with
          sharedWith := [⟨0, none, "x@y.com", "view", 1⟩] }] ∧
    (shareRoute [{ baseSnippet with
          sharedWith := [⟨0, none, "x@y.com", "view", 1⟩] }] [] c2Owner 1
        ["x@y.com"] [] "view" 1).1 =
      Response.ok
        { sharedWith := []
          notFound := [TargetRef.email "x@y.com"]
          totalSharedUsers := 1 } ∧
    (shareRoute [{ baseSnippet with
          sharedWith := [⟨0, none, "x@y.com", "view", 1⟩] }] [] c2Owner 1
        ["x@y.com"] [] "view" 1).2.1 =
      [{ baseSnippet with
          sharedWith := [⟨0, none, "x@y.com", "view", 1⟩] }] :=
  ⟨by decide, by decide, by decide⟩

/-- C6 amended: granting the same email twice never produces two ledger
entries — the second invocation leaves the store (hence the ledger)
entirely unchanged, and succeeds with an empty sharedWith list; the
response has no alreadyShared field, so the absorbed email is reported
under notFound when it resolves to no user and nowhere otherwise. -/
theorem c6_share_same_email_twice_absorbed (store : List Snippet)
    (users : List UserRec) (u : Requester) (id : Nat) (e perm : String)
    (ctr : Nat) (s : Snippet)
    (hmem : s ∈ store) (hid : s.id = id) (hauthor : s.author = u.userId)
    (hact : s.isActive = true)
    (huniq : ∀ t ∈ store, t.id = id → t = s) :
    ((shareRoute (shareRoute store users u id [e] [] perm ctr).2.1 users u id
        [e] [] perm (shareRoute store users u id [e] [] perm ctr).2.2).2.1 =
      (shareRoute store users u id [e] [] perm ctr).2.1) ∧
    ∃ res : ShareResult,
      (shareRoute (shareRoute store users u id [e] [] perm ctr).2.1 users u id
          [e] [] perm (shareRoute store users u id [e] [] perm ctr).2.2).1 =
        Response.ok res ∧ res.sharedWith = [] := by
  have hfind1 : store.find?
      (fun t => t.id == id && t.author == u.userId && t.isActive) = some s := by
    apply find?_eq_some_of_unique hmem
    · simp [hid, hauthor, hact]
    · intro t ht hpt
      simp only [Bool.and_eq_true, beq_iff_eq] at hpt
      exact huniq t ht hpt.1.1
  by_cases hal : emailAlreadyShared s.sharedWith (findUserByEmail users e) e = true
  · have h1 := shareRoute_single_email_already store users u id e perm ctr s
      hfind1 hal
    have hsave : saveSnippet store s = store :=
      saveSnippet_self (fun t ht hti => huniq t ht (hti.trans hid))
    rw [h1, hsave]
    exact ⟨by rw [h1, hsave], ⟨_, by rw [h1, hsave], rfl⟩⟩
  · have hal' : emailAlreadyShared s.sharedWith (findUserByEmail users e) e =
        false := by
      simpa using hal
    have h1 := shareRoute_single_email_new store users u id e perm ctr s
      hfind1 hal'
    have hsid : (appendEmailGrant s users e perm ctr u.userId).id = s.id := rfl
    have hmem2 : appendEmailGrant s users e perm ctr u.userId ∈
        saveSnippet store (appendEmailGrant s users e perm ctr u.userId) :=
      mem_saveSnippet hmem hsid
    have hfind2 : (saveSnippet store
        (appendEmailGrant s users e perm ctr u.userId)).find?
        (fun t => t.id == id && t.author == u.userId && t.isActive) =
        some (appendEmailGrant s users e perm ctr u.userId) := by
      apply find?_eq_some_of_unique hmem2
      · simp [appendEmailGrant, hid, hauthor, hact]
      · intro t ht hpt
        simp only [Bool.and_eq_true, beq_iff_eq] at hpt
        exact saveSnippet_uniq t ht ((hpt.1.1.trans hid.symm).trans hsid.symm)
    have hal2 : emailAlreadyShared
        (appendEmailGrant s users e perm ctr u.userId).sharedWith
        (findUserByEmail users e) e = true := by
      simp [emailAlreadyShared, appendEmailGrant, List.any_append]
    have h2 := shareRoute_single_email_already
      (saveSnippet store (appendEmailGrant s users e perm ctr u.userId))
      users u id e perm (ctr + 1)
      (appendEmailGrant s users e perm ctr u.userId) hfind2 hal2
    have hsave2 : saveSnippet
        (saveSnippet store (appendEmailGrant s users e perm ctr u.userId))
        (appendEmailGrant s users e perm ctr u.userId) =
        saveSnippet store (appendEmailGrant s users e perm ctr u.userId) :=
      saveSnippet_self (fun t ht hti => saveSnippet_uniq t ht hti)
    rw [h1]
    exact ⟨by rw [h2, hsave2], ⟨_, by rw [h2], rfl⟩⟩

/-- C6 amended, witness: the counterexample state instantiates the theorem:
a second grant of the already-ledgered email leaves the store unchanged and
succeeds with an empty sharedWith report. -/
theorem c6_share_same_email_twice_absorbed_witness :
    baseSnippet ∈ [baseSnippet] ∧
    ((shareRoute (shareRoute [baseSnippet] [] c2Owner 1 ["x@y.com"] [] "view"
        0).2.1 [] c2Owner 1 ["x@y.com"] [] "view"
        (shareRoute [baseSnippet] [] c2Owner 1 ["x@y.com"] [] "view" 0).2.2).2.1 =
      (shareRoute [baseSnippet] [] c2Owner 1 ["x@y.com"] [] "view" 0).2.1) ∧
    ∃ res : ShareResult,
      (shareRoute (shareRoute [baseSnippet] [] c2Owner 1 ["x@y.com"] [] "view"
          0).2.1 [] c2Owner 1 ["x@y.com"] [] "view"
          (shareRoute [baseSnippet] [] c2Owner 1 ["x@y.com"] [] "view" 0).2.2).1 =
        Response.ok res ∧ res.sharedWith = [] := by
  refine ⟨List.mem_singleton.mpr rfl, ?_⟩
  exact c6_share_same_email_twice_absorbed [baseSnippet] [] c2Owner 1 "x@y.com"
    "view" 0 baseSnippet (List.mem_singleton.mpr rfl) (by decide) (by decide)
    (by decide) (by decide)

end SnipSafe
